import Mathlib

/-!
Verification of the game core of `phaser-catch-the-cat`
(`src/scenes/mainScene.ts`), shallowly embedded in Lean 4.

The embedding covers the grid (`blocks`, a `w × h` array of `isWall`
flags), the static neighbour computation `MainScene.getNeighbours`,
the bounds-checked lookup `MainScene.getBlock`, the turn handler
`MainScene.playerClick` and `MainScene.reset`.  The `Cat` sprite class
is not part of the embedded source; `playerClick` interacts with it only
through `cat.isCaught()` and `cat.step()`, so the cat is represented by
a behaviour parameter (`CatBehaviour`), and the events it can fire
(`escaped` → LOSE, `win` → WIN, wired up in `MainScene.createCat`) are
represented by a `CatEvent` returned from `step`.
-/

namespace CatchTheCat

/-- Game states, from the `GameState` enum in `mainScene.ts`. -/
inductive GameState
| playing
| win
| lose
deriving DecidableEq

/-- `MainScene.getNeighbours(i, j)`: the six neighbours of hex cell
`(i, j)` in the fixed array order
`[left, top_left, top_right, right, bottom_right, bottom_left]`,
with the diagonals selected by the parity test `(j & 1) === 0`
(for integers, equivalent to `j % 2 = 0`).  The tuple `d` collects
`(top_left, top_right, bottom_left, bottom_right)` exactly as the two
branches of the source assign them. -/
def getNeighbours (i j : Int) : List (Int × Int) :=
  let left := (i - 1, j)
  let right := (i + 1, j)
  let d :=
    if j % 2 = 0 then
      ((i - 1, j - 1), (i, j - 1), (i - 1, j + 1), (i, j + 1))
    else
      ((i, j - 1), (i + 1, j - 1), (i, j + 1), (i + 1, j + 1))
  [left, d.1, d.2.1, right, d.2.2.2, d.2.2.1]

/-- The neighbour list as the specification words it: the six pairs in
the order {left, top-left, top-right, right, bottom-right, bottom-left},
with the diagonal neighbours determined by the parity of `j`. -/
def neighboursSpec (i j : Int) : List (Int × Int) :=
  if j % 2 = 0 then
    [(i - 1, j), (i - 1, j - 1), (i, j - 1), (i + 1, j), (i, j + 1), (i - 1, j + 1)]
  else
    [(i - 1, j), (i, j - 1), (i + 1, j - 1), (i + 1, j), (i + 1, j + 1), (i, j + 1)]

/-- The model state behind `MainScene`: grid dimensions `w`, `h`, the
per-cell `isWall` flags (`blocks[i][j].isWall`, stored column-first as
in the source), the cat's current cell `cat = (cat.i, cat.j)`, the
game state, and the cat's fixed start cell.

Modelled from the spec: the field `catStart` is the agent's "fixed start
Position (grid center or designated spawn) used by reset" (§4.3); the
`Cat` class holding it is not part of the embedded source file. -/
structure Model where
  w : Nat
  h : Nat
  walls : List (List Bool)
  cat : Int × Int
  catStart : Int × Int
  state : GameState
deriving DecidableEq

/-- Read `blocks[a][b].isWall` (missing indices default to `false`). -/
def wallAt (m : Model) (a b : Nat) : Bool :=
  (m.walls.getD a []).getD b false

/-- `MainScene.getBlock(i, j)`: `null` unless
`i >= 0 && i < w && j >= 0 && j < h`, otherwise the cell — here the
cell's `isWall` flag, the only cell attribute in the model. -/
def getBlock (m : Model) (i j : Int) : Option Bool :=
  if 0 ≤ i ∧ i < (m.w : Int) ∧ 0 ≤ j ∧ j < (m.h : Int) then
    some (wallAt m i.toNat j.toNat)
  else
    none

/-- Set entry `(a, b)` of a column-first grid to `v`. -/
def setGrid (g : List (List Bool)) (a b : Nat) (v : Bool) : List (List Bool) :=
  g.set a ((g.getD a []).set b v)

/-- `block.isWall = true` for the block at `(i, j)`. -/
def setWall (m : Model) (i j : Int) : Model :=
  { m with walls := setGrid m.walls i.toNat j.toNat true }

/-- Events the cat can fire while it steps, wired up in
`MainScene.createCat`: `escaped` sets the state to LOSE and `win` sets
it to WIN; `quiet` is a step that fires neither. -/
inductive CatEvent
| quiet
| escaped
| won
deriving DecidableEq

/-- Effect of a cat event on the game state, from the handlers
registered in `MainScene.createCat`. -/
def applyEvent (s : GameState) (e : CatEvent) : GameState :=
  match e with
  | CatEvent.quiet => s
  | CatEvent.escaped => GameState.lose
  | CatEvent.won => GameState.win

/-- The interface `playerClick` uses on the cat.

Modelled from the spec: the `Cat` class itself is outside the embedded
source file, so its two calls are kept abstract.  `isCaught` is the
enclosure test (§4.3 delegates it to the reachability engine); `step`
returns `none` when the cat has no legal move (the source's
`step() === false`, the cat concedes and does not move), and
`some (p, e)` when the cat moves to cell `p`, firing event `e`. -/
structure CatBehaviour where
  isCaught : Model → Bool
  step : Model → Option ((Int × Int) × CatEvent)

/-- `MainScene.reset()`: reset the cat (Modelled from the spec: `Cat.reset`
"relocates to the fixed start Position", §4.3), clear every `isWall`
flag, and set the state back to PLAYING. -/
def reset (m : Model) : Model :=
  { m with
      cat := m.catStart,
      walls := m.walls.map (List.map (fun _ => false)),
      state := GameState.playing }

/-- `MainScene.playerClick(i, j)`, returning the updated model and the
method's boolean result.  Status-bar text and animation stops are
presentation-only and not modelled. -/
def playerClick (cb : CatBehaviour) (m : Model) (i j : Int) : Model × Bool :=
  if m.state ≠ GameState.playing then
    (reset m, false)
  else
    match getBlock m i j with
    | none => (m, false)
    | some isWall =>
      if isWall then
        (m, false)
      else if m.cat.1 = i ∧ m.cat.2 = j then
        (m, false)
      else
        let m1 := setWall m i j
        if cb.isCaught m1 then
          ({ m1 with state := GameState.win }, false)
        else
          match cb.step m1 with
          | none => ({ m1 with state := GameState.win }, true)
          | some (p, e) => ({ m1 with cat := p, state := applyEvent m1.state e }, true)

/-- The cell `p` is in bounds and open (not a wall) in `m`. -/
abbrev posOk (m : Model) (p : Int × Int) : Prop :=
  (0 ≤ p.1 ∧ p.1 < (m.w : Int) ∧ 0 ≤ p.2 ∧ p.2 < (m.h : Int)) ∧
    wallAt m p.1.toNat p.2.toNat = false

/-- The structural invariant on the cat: its current cell is in bounds
and is not a wall. -/
abbrev catSafe (m : Model) : Prop :=
  posOk m m.cat

theorem getNeighbours_even (i j : Int) (h : j % 2 = 0) :
    getNeighbours i j =
      [(i - 1, j), (i - 1, j - 1), (i, j - 1), (i + 1, j), (i, j + 1), (i - 1, j + 1)] := by
  simp [getNeighbours, h]

theorem getNeighbours_odd (i j : Int) (h : ¬ j % 2 = 0) :
    getNeighbours i j =
      [(i - 1, j), (i, j - 1), (i + 1, j - 1), (i + 1, j), (i + 1, j + 1), (i, j + 1)] := by
  simp [getNeighbours, h]

/-- C1: for every cell `(i, j)`, `getNeighbours` returns the six pairs
in the fixed order {left, top-left, top-right, right, bottom-right,
bottom-left}, with `left = (i-1, j)` and `right = (i+1, j)` always and
the diagonals determined by the parity of `j` exactly as the
specification lists them. -/
theorem getNeighbours_matches_spec (i j : Int) :
    getNeighbours i j = neighboursSpec i j := by
  by_cases h : j % 2 = 0
  · rw [getNeighbours_even i j h]
    simp [neighboursSpec, h]
  · rw [getNeighbours_odd i j h]
    simp [neighboursSpec, h]

/-- C7: `getBlock(i, j)` returns the cell exactly when
`0 ≤ i < w` and `0 ≤ j < h`, and a defined `null` miss otherwise. -/
theorem getBlock_in_bounds_or_none (m : Model) (i j : Int) :
    ((0 ≤ i ∧ i < (m.w : Int) ∧ 0 ≤ j ∧ j < (m.h : Int)) →
       getBlock m i j = some (wallAt m i.toNat j.toNat)) ∧
    (¬ (0 ≤ i ∧ i < (m.w : Int) ∧ 0 ≤ j ∧ j < (m.h : Int)) →
       getBlock m i j = none) := by
  constructor <;> intro h <;> simp [getBlock, h]

/-- A family of cat behaviours and grids used to instantiate the
conditional theorems: a cat that never finds a move. -/
def cbConcede : CatBehaviour :=
  { isCaught := fun _ => false, step := fun _ => none }

/-- A 3 × 3 grid with no walls, the cat at the centre `(1, 1)`, playing. -/
def m3 : Model :=
  { w := 3
    h := 3
    walls := [[false, false, false], [false, false, false], [false, false, false]]
    cat := (1, 1)
    catStart := (1, 1)
    state := GameState.playing }

theorem getBlock_in_bounds_or_none_holds :
    getBlock m3 0 0 = some false ∧ getBlock m3 3 0 = none := by
  constructor
  · have h := (getBlock_in_bounds_or_none m3 0 0).1 (by decide)
    simpa using h
  · exact (getBlock_in_bounds_or_none m3 3 0).2 (by decide)

/-- C8: `getNeighbours (i, j)` has exactly 6 entries, none of them equal
to `(i, j)`, and the neighbour relation is symmetric: whenever `(a, b)`
is among the neighbours of `(i, j)`, `(i, j)` is among the neighbours of
`(a, b)`. -/
theorem getNeighbours_count_irrefl_symm (i j a b : Int) :
    (getNeighbours i j).length = 6 ∧
    (i, j) ∉ getNeighbours i j ∧
    ((a, b) ∈ getNeighbours i j → (i, j) ∈ getNeighbours a b) := by
  refine ⟨?_, ?_, ?_⟩
  · by_cases h : j % 2 = 0
    · rw [getNeighbours_even i j h]
      rfl
    · rw [getNeighbours_odd i j h]
      rfl
  · by_cases h : j % 2 = 0
    · rw [getNeighbours_even i j h]
      simp [Prod.ext_iff]
      omega
    · rw [getNeighbours_odd i j h]
      simp [Prod.ext_iff]
      omega
  · intro hmem
    by_cases h : j % 2 = 0
    · rw [getNeighbours_even i j h] at hmem
      simp only [List.mem_cons, List.not_mem_nil, or_false, Prod.mk.injEq] at hmem
      rcases hmem with ⟨ha, hb⟩ | ⟨ha, hb⟩ | ⟨ha, hb⟩ | ⟨ha, hb⟩ | ⟨ha, hb⟩ | ⟨ha, hb⟩ <;>
        subst ha <;> subst hb
      · rw [getNeighbours_even _ _ (by omega)]
        simp [Prod.ext_iff]
      · rw [getNeighbours_odd _ _ (by omega)]
        simp [Prod.ext_iff]
      · rw [getNeighbours_odd _ _ (by omega)]
        simp [Prod.ext_iff]
      · rw [getNeighbours_even _ _ (by omega)]
        simp [Prod.ext_iff]
      · rw [getNeighbours_odd _ _ (by omega)]
        simp [Prod.ext_iff]
      · rw [getNeighbours_odd _ _ (by omega)]
        simp [Prod.ext_iff]
    · rw [getNeighbours_odd i j h] at hmem
      simp only [List.mem_cons, List.not_mem_nil, or_false, Prod.mk.injEq] at hmem
      rcases hmem with ⟨ha, hb⟩ | ⟨ha, hb⟩ | ⟨ha, hb⟩ | ⟨ha, hb⟩ | ⟨ha, hb⟩ | ⟨ha, hb⟩ <;>
        subst ha <;> subst hb
      · rw [getNeighbours_odd _ _ (by omega)]
        simp [Prod.ext_iff]
      · rw [getNeighbours_even _ _ (by omega)]
        simp [Prod.ext_iff]
      · rw [getNeighbours_even _ _ (by omega)]
        simp [Prod.ext_iff]
      · rw [getNeighbours_odd _ _ (by omega)]
        simp [Prod.ext_iff]
      · rw [getNeighbours_even _ _ (by omega)]
        simp [Prod.ext_iff]
      · rw [getNeighbours_even _ _ (by omega)]
        simp [Prod.ext_iff]

theorem getNeighbours_count_irrefl_symm_holds :
    (getNeighbours 0 0).length = 6 ∧
    (0, 0) ∉ getNeighbours 0 0 ∧
    (0, 0) ∈ getNeighbours 0 1 :=
  ⟨(getNeighbours_count_irrefl_symm 0 0 0 1).1,
   (getNeighbours_count_irrefl_symm 0 0 0 1).2.1,
   (getNeighbours_count_irrefl_symm 0 0 0 1).2.2 (by decide)⟩

theorem getD_map_const_false (c : List Bool) (b : Nat) :
    (c.map (fun _ => false)).getD b false = false := by
  induction c generalizing b with
  | nil => rfl
  | cons x t ih =>
    cases b with
    | zero => rfl
    | succ n =>
      rw [List.map_cons, List.getD_cons_succ]
      exact ih n

theorem wallAt_reset (m : Model) (a b : Nat) :
    wallAt (reset m) a b = false := by
  show ((m.walls.map (List.map (fun _ => false))).getD a []).getD b false = false
  induction m.walls generalizing a with
  | nil => cases a <;> rfl
  | cons c t ih =>
    cases a with
    | zero => exact getD_map_const_false c b
    | succ n =>
      rw [List.map_cons, List.getD_cons_succ]
      exact ih n

theorem state_reset (m : Model) : (reset m).state = GameState.playing := rfl

/-- C4: a click during PLAYING whose target is out of bounds, already a
wall, or the cat's current cell returns `false` and leaves the model
unchanged. -/
theorem playerClick_invalid_rejected (cb : CatBehaviour) (m : Model) (i j : Int)
    (hs : m.state = GameState.playing)
    (h : getBlock m i j = none ∨ getBlock m i j = some true ∨
         (m.cat.1 = i ∧ m.cat.2 = j)) :
    playerClick cb m i j = (m, false) := by
  rcases h with h | h | h
  · simp [playerClick, hs, h]
  · simp [playerClick, hs, h]
  · rcases hb : getBlock m i j with - | w
    · simp [playerClick, hs, hb]
    · cases w
      · simp [playerClick, hs, hb, h.1, h.2]
      · simp [playerClick, hs, hb]

/-- `m3` with the wall at `(0, 0)` set. -/
def m3w : Model :=
  { m3 with walls := [[true, false, false], [false, false, false], [false, false, false]] }

theorem playerClick_invalid_rejected_holds :
    playerClick cbConcede m3w 0 0 = (m3w, false) ∧
    playerClick cbConcede m3 5 5 = (m3, false) ∧
    playerClick cbConcede m3 1 1 = (m3, false) :=
  ⟨playerClick_invalid_rejected cbConcede m3w 0 0 (by decide) (Or.inr (Or.inl (by decide))),
   playerClick_invalid_rejected cbConcede m3 5 5 (by decide) (Or.inl (by decide)),
   playerClick_invalid_rejected cbConcede m3 1 1 (by decide) (Or.inr (Or.inr (by decide)))⟩

/-- C5: a click while the state is WIN or LOSE returns `false` and
resets the model; afterwards the state is PLAYING and every cell's
`isWall` is `false`. -/
theorem playerClick_game_over_resets (cb : CatBehaviour) (m : Model) (i j : Int)
    (hs : m.state ≠ GameState.playing) :
    playerClick cb m i j = (reset m, false) ∧
    (playerClick cb m i j).1.state = GameState.playing ∧
    ∀ a b : Nat, wallAt (playerClick cb m i j).1 a b = false := by
  have hpc : playerClick cb m i j = (reset m, false) := by
    simp [playerClick, hs]
  refine ⟨hpc, ?_, ?_⟩
  · rw [hpc]
    rfl
  · intro a b
    rw [hpc]
    exact wallAt_reset m a b

/-- `m3` after the player has won. -/
def m3win : Model :=
  { m3 with state := GameState.win }

theorem playerClick_game_over_resets_holds :
    playerClick cbConcede m3win 0 0 = (reset m3win, false) ∧
    (playerClick cbConcede m3win 0 0).1.state = GameState.playing ∧
    wallAt (playerClick cbConcede m3win 0 0).1 0 0 = false :=
  ⟨(playerClick_game_over_resets cbConcede m3win 0 0 (by decide)).1,
   (playerClick_game_over_resets cbConcede m3win 0 0 (by decide)).2.1,
   (playerClick_game_over_resets cbConcede m3win 0 0 (by decide)).2.2 0 0⟩

/-- C3: a valid click during PLAYING that encloses the cat
(`isCaught()` true after the wall is placed) sets the state to WIN,
returns `false`, and leaves the cat where it was. -/
theorem playerClick_caught_wins_without_move (cb : CatBehaviour) (m : Model) (i j : Int)
    (hs : m.state = GameState.playing)
    (hb : getBlock m i j = some false)
    (hcat : ¬ (m.cat.1 = i ∧ m.cat.2 = j))
    (hcaught : cb.isCaught (setWall m i j) = true) :
    playerClick cb m i j = ({ setWall m i j with state := GameState.win }, false) ∧
    (playerClick cb m i j).1.cat = m.cat := by
  have hpc : playerClick cb m i j = ({ setWall m i j with state := GameState.win }, false) := by
    simp [playerClick, hs, hb, hcat, hcaught]
  refine ⟨hpc, ?_⟩
  rw [hpc]
  rfl

/-- A cat behaviour that always reports the cat as enclosed. -/
def cbCaught : CatBehaviour :=
  { isCaught := fun _ => true, step := fun _ => none }

theorem playerClick_caught_wins_without_move_holds :
    playerClick cbCaught m3 2 2 = ({ setWall m3 2 2 with state := GameState.win }, false) ∧
    (playerClick cbCaught m3 2 2).1.cat = m3.cat :=
  playerClick_caught_wins_without_move cbCaught m3 2 2 (by decide) (by decide)
    (by decide) (by decide)

/-- C2: a valid click during PLAYING after which the cat is not enclosed
but `step()` returns `false` (the cat concedes) sets the state to WIN,
not LOSE. -/
theorem playerClick_concession_is_win (cb : CatBehaviour) (m : Model) (i j : Int)
    (hs : m.state = GameState.playing)
    (hb : getBlock m i j = some false)
    (hcat : ¬ (m.cat.1 = i ∧ m.cat.2 = j))
    (hfree : cb.isCaught (setWall m i j) = false)
    (hstep : cb.step (setWall m i j) = none) :
    (playerClick cb m i j).1.state = GameState.win := by
  simp [playerClick, hs, hb, hcat, hfree, hstep]

theorem playerClick_concession_is_win_holds :
    (playerClick cbConcede m3 0 0).1.state = GameState.win :=
  playerClick_concession_is_win cbConcede m3 0 0 (by decide) (by decide)
    (by decide) (by decide) (by decide)

/-- C10: in the concession case the method still returns `true` (with
the state set to WIN), unlike the enclosure case which returns `false`;
a `false` return therefore does not mean "game continues". -/
theorem playerClick_concession_returns_true (cb : CatBehaviour) (m : Model) (i j : Int)
    (hs : m.state = GameState.playing)
    (hb : getBlock m i j = some false)
    (hcat : ¬ (m.cat.1 = i ∧ m.cat.2 = j))
    (hfree : cb.isCaught (setWall m i j) = false)
    (hstep : cb.step (setWall m i j) = none) :
    playerClick cb m i j = ({ setWall m i j with state := GameState.win }, true) := by
  simp [playerClick, hs, hb, hcat, hfree, hstep]

theorem playerClick_concession_returns_true_holds :
    playerClick cbConcede m3 0 1 = ({ setWall m3 0 1 with state := GameState.win }, true) :=
  playerClick_concession_returns_true cbConcede m3 0 1 (by decide) (by decide)
    (by decide) (by decide) (by decide)

theorem getD_set_ne {α : Type} (l : List α) (a x : Nat) (v d : α) (h : x ≠ a) :
    (l.set a v).getD x d = l.getD x d := by
  simp [List.getD_eq_getElem?_getD, List.getElem?_set_ne (Ne.symm h)]

theorem getD_set_self_of_lt {α : Type} (l : List α) (a : Nat) (v d : α)
    (h : a < l.length) :
    (l.set a v).getD a d = v := by
  simp [List.getD_eq_getElem?_getD, List.getElem?_set_self h]

theorem wallAt_setWall_ne (m : Model) (i j : Int) (x y : Nat)
    (h : ¬ (x = i.toNat ∧ y = j.toNat)) :
    wallAt (setWall m i j) x y = wallAt m x y := by
  show ((setGrid m.walls i.toNat j.toNat true).getD x []).getD y false =
    (m.walls.getD x []).getD y false
  unfold setGrid
  by_cases hx : x = i.toNat
  · subst hx
    by_cases hl : i.toNat < m.walls.length
    · rw [getD_set_self_of_lt _ _ _ _ hl]
      have hy : y ≠ j.toNat := fun hy => h ⟨rfl, hy⟩
      rw [getD_set_ne _ _ _ _ _ hy]
    · rw [List.set_eq_of_length_le (by omega)]
  · rw [getD_set_ne _ _ _ _ _ hx]

/-- C6: the cat is never on a wall.  If the cat behaviour only ever
steps to in-bounds open cells (the spec's contract for `Cat.step`), then
both `playerClick` and `reset` preserve the invariant that the cat's
cell is in bounds and open; in particular `playerClick` never places a
wall on the cat's cell. -/
theorem playerClick_reset_preserve_catSafe (cb : CatBehaviour) (m : Model) (i j : Int)
    (hcs : 0 ≤ m.catStart.1 ∧ m.catStart.1 < (m.w : Int) ∧
           0 ≤ m.catStart.2 ∧ m.catStart.2 < (m.h : Int))
    (hstep : ∀ m' p e, cb.step m' = some (p, e) → posOk m' p)
    (hm : catSafe m) :
    catSafe (playerClick cb m i j).1 ∧ catSafe (reset m) := by
  have hreset : catSafe (reset m) := ⟨hcs, wallAt_reset m _ _⟩
  refine ⟨?_, hreset⟩
  by_cases hs : m.state = GameState.playing
  · rcases hb : getBlock m i j with - | w
    · have hpc : (playerClick cb m i j).1 = m := by simp [playerClick, hs, hb]
      rw [hpc]
      exact hm
    · cases w with
      | true =>
        have hpc : (playerClick cb m i j).1 = m := by simp [playerClick, hs, hb]
        rw [hpc]
        exact hm
      | false =>
        by_cases hcat : m.cat.1 = i ∧ m.cat.2 = j
        · have hpc : (playerClick cb m i j).1 = m := by simp [playerClick, hs, hb, hcat]
          rw [hpc]
          exact hm
        · have hbounds : 0 ≤ i ∧ i < (m.w : Int) ∧ 0 ≤ j ∧ j < (m.h : Int) := by
            by_contra hx
            simp [getBlock, hx] at hb
          have hcatW : wallAt (setWall m i j) m.cat.1.toNat m.cat.2.toNat = false := by
            rw [wallAt_setWall_ne m i j _ _ ?_]
            · exact hm.2
            · rcases hm with ⟨⟨h1, h2, h3, h4⟩, -⟩
              omega
          cases hcaught : cb.isCaught (setWall m i j) with
          | true =>
            have hpc : (playerClick cb m i j).1 =
                { setWall m i j with state := GameState.win } := by
              simp [playerClick, hs, hb, hcat, hcaught]
            rw [hpc]
            exact ⟨hm.1, hcatW⟩
          | false =>
            rcases hstepEq : cb.step (setWall m i j) with - | pe
            · have hpc : (playerClick cb m i j).1 =
                  { setWall m i j with state := GameState.win } := by
                simp [playerClick, hs, hb, hcat, hcaught, hstepEq]
              rw [hpc]
              exact ⟨hm.1, hcatW⟩
            · obtain ⟨p, e⟩ := pe
              have hpc : (playerClick cb m i j).1 =
                  { setWall m i j with
                      cat := p
                      state := applyEvent (setWall m i j).state e } := by
                simp [playerClick, hs, hb, hcat, hcaught, hstepEq]
              rw [hpc]
              exact ⟨(hstep _ p e hstepEq).1, (hstep _ p e hstepEq).2⟩
  · have hpc : (playerClick cb m i j).1 = reset m := by simp [playerClick, hs]
    rw [hpc]
    exact hreset

theorem playerClick_reset_preserve_catSafe_holds :
    catSafe (playerClick cbConcede m3 0 0).1 ∧ catSafe (reset m3) :=
  playerClick_reset_preserve_catSafe cbConcede m3 0 0 (by decide)
    (by intro m' p e hcontra; simp [cbConcede] at hcontra) (by decide)

/-- C9: `reset` is idempotent — resetting twice yields the same model
(walls, cat position, game state) as resetting once. -/
theorem reset_idempotent (m : Model) : reset (reset m) = reset m := by
  simp only [reset]
  congr 1
  simp [List.map_map, Function.comp_def]

end CatchTheCat
